import Mathlib

set_option maxRecDepth 4000

/-!
# Verification of the bigcoin-price-bot reconciliation engine

A shallow embedding of `src/index.ts` (the bot's single source file) and,
where a claim cites them, of the alternative revisions of the same file
kept in the repository (notably the revision embedded here with the
`Checked` suffix, which guards the metrics fetch and the compact
formatter against failures and `null`).

The external world (Discord guilds/channels, the Redis store, the stats
endpoint) is modelled as explicit state:

* `World` holds the Redis contents (tenant registry plus the per-guild
  `channelGroup` / `priceChannel` / `halveningChannel` id mapping), the
  per-guild platform state (`Guild`), and an oracle for the stats
  endpoint (a list of pending HTTP results, consumed in order).
* Each guild carries "plans" — lists of results for its fallible
  platform mutations (channel creation, rename, reparent, reposition,
  permission fix, delete), consumed one entry per attempted call; an
  exhausted `Bool` plan means the call succeeds, an exhausted creation
  plan means creation fails.
* Every operation returns a `Res α`: the new world, the list of observable
  calls it made (`Ev`), in order, and its result.  Redis keys are
  represented structurally by `SKey` (`"guilds"`, `"<gid>:channelGroup"`,
  `"<gid>:priceChannel"`, `"<gid>:halveningChannel"`); distinct `SKey`
  values correspond to distinct key strings.
* A thrown JS exception that a source function lets escape is an
  `Except.error`; `try/catch` blocks are embedded by the corresponding
  case analysis.
-/

/-- Discord channel kinds relevant to the bot (`ChannelType.GuildCategory`,
`ChannelType.GuildVoice`, anything else). -/
inductive ChanType
  | category
  | voice
  | other
deriving DecidableEq, Repr

/-- Observable state of one Discord channel: its type, name, parent category
id, position, and whether the bot can manage it (`channel.manageable`). -/
structure Chan where
  ctype : ChanType
  name : String
  parent : Option String
  pos : Int
  manageable : Bool
deriving DecidableEq, Repr

/-- Structural model of the Redis keys the bot uses: `"guilds"`,
`"<gid>:channelGroup"`, `"<gid>:priceChannel"`, `"<gid>:halveningChannel"`.
Distinct `SKey`s denote distinct key strings. -/
inductive SKey
  | registry
  | group (g : String)
  | price (g : String)
  | halv (g : String)
deriving DecidableEq, Repr

/-- The two managed child channels (`channelType: 'price' | 'halvening'`). -/
inductive CKind
  | price
  | halv
deriving DecidableEq, Repr

/-- Observable calls issued against the platform and the store.
`reconcile` marks the entry into `updateChannel` with the desired name
(instrumentation); `createGroup`/`createChan`/`fixPerms`/`rename`/
`reparent`/`reposition`/`delChan` are platform mutation calls;
`storeRead`/`storeWrite`/`storeDel` are Redis accesses. -/
inductive Ev
  | fetchStats
  | reconcile (g : String) (k : CKind) (value : String)
  | createGroup (g : String)
  | createChan (g : String) (name : String) (parent : String) (pos : Int)
  | fixPerms (g : String) (id : String)
  | rename (g : String) (id : String) (name : String)
  | reparent (g : String) (id : String) (parent : String)
  | reposition (g : String) (id : String) (pos : Int)
  | delChan (g : String) (id : String)
  | storeRead (k : SKey)
  | storeWrite (k : SKey)
  | storeDel (k : SKey)
deriving DecidableEq, Repr

/-- Result of one `updateChannel` run, abstracting its exit paths: normal
completion, the permission-check early returns, and the error exits
(outer `catch`, or an early `return` after a failed mutation). -/
inductive Outcome
  | converged
  | permissionDenied
  | failed (reason : String)
deriving DecidableEq, Repr

/-- One Discord guild as the bot can observe it, together with the outcome
plans for its fallible mutations.  `hasManage`/`hasView` are the bot
member's `ManageChannels`/`ViewChannel` permissions, `rolePos` is
`botMember.roles.highest.position`, `memberOk` is whether
`guild.members.fetch` succeeds.  A `List Bool` plan yields its head for
the next call of that kind (exhausted = success); a creation plan yields
`some id` (created channel id) or `none` (creation throws), exhausted =
creation throws. -/
structure Guild where
  channels : List (String × Chan)
  hasManage : Bool
  hasView : Bool
  rolePos : Nat
  memberOk : Bool
  createGroupPlan : List (Option String)
  createChanPlan : List (Option String)
  permFixPlan : List Bool
  renamePlan : List Bool
  movePlan : List Bool
  posPlan : List Bool
  delPlan : List Bool
deriving DecidableEq

/-- The per-guild Redis mapping entries. -/
structure Mapping where
  group : Option String
  price : Option String
  halv : Option String
deriving DecidableEq, Repr

/-- The stats endpoint's JSON body; only the two fields the bot reads are
modelled, each `none` when missing or non-numeric.  (The real payload also
carries `currentEmissions` and `globalHashRate`, which the bot ignores.) -/
structure Payload where
  bigPrice : Option ℚ
  blocksUntilHalving : Option ℚ

/-- Global state: the Redis registry (`"guilds"` key, `none` = unset),
platform guilds (absent = guild vanished / unfetchable), per-guild
mappings (absent = all three keys unset), and the pending stats-endpoint
results. -/
structure World where
  registry : Option (List String)
  guilds : List (String × Guild)
  maps : List (String × Mapping)
  stats : List (Except String Payload)

/-- An operation's result: final world, emitted calls (in order), value. -/
structure Res (α : Type) where
  w : World
  tr : List Ev
  val : α

/-- Association-list lookup keyed by propositional string equality. -/
def alookup {α : Type} : List (String × α) → String → Option α
  | [], _ => none
  | (k', v) :: rest, k => if k' = k then some v else alookup rest k

/-- Association-list update (replace the first binding or append). -/
def updateAssoc {α : Type} : List (String × α) → String → α → List (String × α)
  | [], k, v => [(k, v)]
  | (k', v') :: rest, k, v =>
      if k' = k then (k, v) :: rest else (k', v') :: updateAssoc rest k v

def getMapW (w : World) (gid : String) : Mapping :=
  (alookup w.maps gid).getD ⟨none, none, none⟩

def setMapW (w : World) (gid : String) (m : Mapping) : World :=
  { w with maps := updateAssoc w.maps gid m }

def setMapGroup (w : World) (gid : String) (o : Option String) : World :=
  setMapW w gid { getMapW w gid with group := o }

def getChild (m : Mapping) : CKind → Option String
  | .price => m.price
  | .halv => m.halv

def setMapChild (w : World) (gid : String) (k : CKind) (o : Option String) : World :=
  match k with
  | .price => setMapW w gid { getMapW w gid with price := o }
  | .halv => setMapW w gid { getMapW w gid with halv := o }

/-- The Redis key used for a child channel id. -/
def childKey (k : CKind) (g : String) : SKey :=
  match k with
  | .price => .price g
  | .halv => .halv g

def lookupGuild (w : World) (gid : String) : Option Guild :=
  alookup w.guilds gid

def setGuild (w : World) (gid : String) (g : Guild) : World :=
  { w with guilds := updateAssoc w.guilds gid g }

/-- `guild.channels.fetch(cid)`: `none` models both a thrown not-found
error and a `null` result (the source treats them identically). -/
def lookupChan (w : World) (gid cid : String) : Option Chan :=
  match lookupGuild w gid with
  | none => none
  | some g => alookup g.channels cid

def modifyChan (w : World) (gid cid : String) (f : Chan → Chan) : World :=
  match lookupGuild w gid with
  | none => w
  | some g =>
      setGuild w gid
        { g with channels := g.channels.map (fun pr => if pr.1 = cid then (pr.1, f pr.2) else pr) }

/-- `getGuilds()`: parse the registry key, `[]` when unset. -/
def getGuilds (w : World) : List String :=
  w.registry.getD []

def setRegistry (w : World) (r : Option (List String)) : World :=
  { w with registry := r }

/-- `Array.from(new Set(xs))` in JS: deduplicate keeping first occurrences. -/
def dedupAcc (seen : List String) : List String → List String
  | [] => []
  | x :: xs => if x ∈ seen then dedupAcc seen xs else x :: dedupAcc (x :: seen) xs

def dedupFirst (l : List String) : List String :=
  dedupAcc [] l

/-! ## Display formatting

`formatter.format` is `Intl.NumberFormat('en-US', {style: 'currency',
currency: 'USD', minimumFractionDigits: 4, maximumFractionDigits: 4})`;
`formatNumber` uses `toLocaleString('en-US', {maximumFractionDigits: 2,
notation: 'compact', compactDisplay: 'short'})`.  JS numbers are modelled
as `ℚ`; rounding is half-away-from-zero (`halfExpand`, the Intl default),
applied here to non-negative values only after splitting off the sign. -/

/-- `⌊q⌋` for `q ≥ 0` (used only on non-negative arguments). -/
def natFloor (q : ℚ) : ℕ :=
  q.num.toNat / q.den

/-- Round a non-negative rational to the nearest natural, half away from zero. -/
def natHalfRound (q : ℚ) : ℕ :=
  natFloor (q + 1/2)

/-- `n` printed in decimal, left-padded with zeros to `k` digits. -/
def zpad (k : ℕ) (n : ℕ) : String :=
  let s := toString n
  String.mk (List.replicate (k - s.length) '0') ++ s

/-- Decimal digits of `n` with `en-US` thousands separators (fueled
recursion; the fuel `n` always suffices since `n / 1000 < n`). -/
def withCommasAux : ℕ → ℕ → String
  | 0, n => toString n
  | fuel + 1, n =>
      if n < 1000 then toString n
      else withCommasAux fuel (n / 1000) ++ "," ++ zpad 3 (n % 1000)

def withCommas (n : ℕ) : String :=
  withCommasAux n n

/-- The digits (integer and exactly-4 fraction) of a non-negative price. -/
def fmtAbsPrice (q : ℚ) : String :=
  let n := natHalfRound (q * 10000)
  withCommas (n / 10000) ++ "." ++ zpad 4 (n % 10000)

/-- `formatter.format`: en-US USD currency with exactly 4 fraction digits. -/
def formatPrice (q : ℚ) : String :=
  if q < 0 then "-$" ++ fmtAbsPrice (-q) else "$" ++ fmtAbsPrice q

/-- Render `n = 100·v` (a scaled, rounded non-negative value) with at most
two fraction digits, trailing zeros stripped (Intl's
`minimumFractionDigits` defaults to 0). -/
def fmtScaled (n : ℕ) : String :=
  let i := n / 100
  let f := n % 100
  if f = 0 then toString i
  else if f % 10 = 0 then toString i ++ "." ++ toString (f / 10)
  else toString i ++ "." ++ zpad 2 f

/-- Compact (`K`/`M`/`B`/`T`) formatting of a non-negative rational with at
most 2 fraction digits; if rounding pushes the scaled value to 1000 the
next-larger unit is used. -/
def compactAbs (q : ℚ) : String :=
  if q < 1000 then fmtScaled (natHalfRound (q * 100))
  else
    let p := if q < 10^6 then ((1000 : ℚ), "K")
             else if q < 10^9 then (10^6, "M")
             else if q < 10^12 then (10^9, "B")
             else (10^12, "T")
    let n := natHalfRound (q / p.1 * 100)
    if 100000 ≤ n ∧ p.2 ≠ "T" then
      let p' := if p.2 = "K" then ((10^6 : ℚ), "M")
                else if p.2 = "M" then (10^9, "B")
                else (10^12, "T")
      fmtScaled (natHalfRound (q / p'.1 * 100)) ++ p'.2
    else fmtScaled n ++ p.2

/-- `toLocaleString('en-US', {maximumFractionDigits: 2, notation:
'compact', compactDisplay: 'short'})` on a JS number. -/
def compact (q : ℚ) : String :=
  if q < 0 then "-" ++ compactAbs (-q) else compactAbs q

/-- `formatNumber` as in `src/index.ts` (parameter type `number`): at
runtime, a `null`/`undefined` argument makes `number.toLocaleString`
throw a `TypeError`, modelled as `Except.error`. -/
def formatNumber (x : Option ℚ) : Except String String :=
  match x with
  | none => .error "TypeError"
  | some q => .ok (compact q)

/-- `formatNumber` of the repository's other revision (`src/unnamed/part_001`
lines 55-64), which takes `number | null | undefined` and returns `'0'`
for `null`/`undefined`. -/
def formatNumberChecked (x : Option ℚ) : String :=
  match x with
  | none => "0"
  | some q => compact q

/-- `formatter.format` applied to a possibly-`undefined` field: Intl
formats `undefined` as NaN, displayed `"$NaN"`. -/
def formatPriceOpt (x : Option ℚ) : String :=
  match x with
  | none => "$NaN"
  | some q => formatPrice q

/-! ## The stats fetcher -/

/-- `getStats` of `src/index.ts` (lines 56-67): no `try`/`catch`, no
validation — a transport failure or non-2xx response (axios throws on
both) propagates to the caller; on success the two fields are passed
through unchecked (`none` = field missing or non-numeric). -/
def getStats (r : Except String Payload) : Except String (Option ℚ × Option ℚ) :=
  match r with
  | .error e => .error e
  | .ok p => .ok (p.bigPrice, p.blocksUntilHalving)

/-- `getStats` of the repository's other revision (`src/unnamed/part_001`
lines 66-105): wraps the call in `try`/`catch` and validates that both
fields are numbers, returning `{price: 0, blocksUntilHalving: 0}` on any
failure. -/
def getStatsChecked (r : Except String Payload) : ℚ × ℚ :=
  match r with
  | .error _ => (0, 0)
  | .ok p =>
      match p.bigPrice, p.blocksUntilHalving with
      | some a, some b => (a, b)
      | _, _ => (0, 0)

/-- A stats-endpoint interaction that the checked fetcher must absorb:
transport failure / non-2xx, or a payload with a missing field. -/
def statsFailure (r : Except String Payload) : Bool :=
  match r with
  | .error _ => true
  | .ok p => p.bigPrice.isNone || p.blocksUntilHalving.isNone

/-! ## Consuming the per-guild mutation plans -/

def consumeCreateGroup (gid : String) (w : World) : Option String × World :=
  match lookupGuild w gid with
  | none => (none, w)
  | some g =>
      match g.createGroupPlan with
      | [] => (none, w)
      | x :: r => (x, setGuild w gid { g with createGroupPlan := r })

def consumeCreateChan (gid : String) (w : World) : Option String × World :=
  match lookupGuild w gid with
  | none => (none, w)
  | some g =>
      match g.createChanPlan with
      | [] => (none, w)
      | x :: r => (x, setGuild w gid { g with createChanPlan := r })

def consumePermFix (gid : String) (w : World) : Bool × World :=
  match lookupGuild w gid with
  | none => (true, w)
  | some g =>
      match g.permFixPlan with
      | [] => (true, w)
      | b :: r => (b, setGuild w gid { g with permFixPlan := r })

def consumeRename (gid : String) (w : World) : Bool × World :=
  match lookupGuild w gid with
  | none => (true, w)
  | some g =>
      match g.renamePlan with
      | [] => (true, w)
      | b :: r => (b, setGuild w gid { g with renamePlan := r })

def consumeMove (gid : String) (w : World) : Bool × World :=
  match lookupGuild w gid with
  | none => (true, w)
  | some g =>
      match g.movePlan with
      | [] => (true, w)
      | b :: r => (b, setGuild w gid { g with movePlan := r })

def consumePos (gid : String) (w : World) : Bool × World :=
  match lookupGuild w gid with
  | none => (true, w)
  | some g =>
      match g.posPlan with
      | [] => (true, w)
      | b :: r => (b, setGuild w gid { g with posPlan := r })

def consumeDel (gid : String) (w : World) : Bool × World :=
  match lookupGuild w gid with
  | none => (true, w)
  | some g =>
      match g.delPlan with
      | [] => (true, w)
      | b :: r => (b, setGuild w gid { g with delPlan := r })

/-- `getStats()` as called by the drivers: pop the next pending HTTP result. -/
def consumeStats (w : World) : Except String Payload × World :=
  match w.stats with
  | [] => (.error "noResponse", w)
  | r :: rest => (r, { w with stats := rest })

/-! ## The reconciler (`src/index.ts` lines 168-554) -/

/-- `createChannelGroup` (lines 168-178): fetch the guild, create the
`'🌕 BIGCOIN'` category at position 0, persist its id
(`setChannelGroupId`), return the id.  Any throw propagates. -/
def createChannelGroup (gid : String) (w : World) : Res (Except String String) :=
  match lookupGuild w gid with
  | none => ⟨w, [], .error "guildFetch"⟩
  | some _ =>
      let c := consumeCreateGroup gid w
      match c.1 with
      | none => ⟨c.2, [.createGroup gid], .error "createChannelGroup"⟩
      | some nid =>
          let w1 :=
            match lookupGuild c.2 gid with
            | none => c.2
            | some g =>
                setGuild c.2 gid
                  { g with channels := updateAssoc g.channels nid ⟨.category, "🌕 BIGCOIN", none, 0, true⟩ }
          ⟨setMapGroup w1 gid (some nid), [.createGroup gid, .storeWrite (.group gid)], .ok nid⟩

/-- `ensureChannelGroupExists` (lines 180-203): read the stored group id;
if absent, create.  If present, try to fetch it: found ⇒ return the
stored id unchanged; not found / throw ⇒ clear the stored id
(`removeChannelGroupId`) and create a fresh group. -/
def ensureChannelGroupExists (gid : String) (w : World) : Res (Except String String) :=
  match lookupGuild w gid with
  | none => ⟨w, [], .error "guildFetch"⟩
  | some g =>
      match (getMapW w gid).group with
      | none =>
          let r := createChannelGroup gid w
          ⟨r.w, .storeRead (.group gid) :: r.tr, r.val⟩
      | some cgid =>
          match alookup g.channels cgid with
          | some _ => ⟨w, [.storeRead (.group gid)], .ok cgid⟩
          | none =>
              let r := createChannelGroup gid (setMapGroup w gid none)
              ⟨r.w, .storeRead (.group gid) :: .storeDel (.group gid) :: r.tr, r.val⟩

/-- `updateChannel`, position check (lines 504-527): reposition only if
different; a reposition failure is swallowed. -/
def ucPosStep (gid : String) (pos : Int) (cid : String) (c : Chan) (w : World) : Res Outcome :=
  if c.pos = pos then ⟨w, [], .converged⟩
  else
    let r := consumePos gid w
    ⟨(if r.1 then modifyChan r.2 gid cid (fun ch => { ch with pos := pos }) else r.2),
      [.reposition gid cid pos], .converged⟩

/-- `updateChannel`, parent check (lines 479-502): move to the category
only if different; a move failure is swallowed and the position check
still runs. -/
def ucParentStep (gid : String) (pos : Int) (cgid cid : String) (c : Chan) (w : World) :
    Res Outcome :=
  if c.parent = some cgid then ucPosStep gid pos cid c w
  else
    let r := consumeMove gid w
    let w1 := if r.1 then modifyChan r.2 gid cid (fun ch => { ch with parent := some cgid }) else r.2
    let r2 := ucPosStep gid pos cid c w1
    ⟨r2.w, .reparent gid cid cgid :: r2.tr, r2.val⟩

/-- `updateChannel`, name check (lines 456-477): rename only if different;
a rename failure returns immediately ("Don't continue with other
operations if name update fails"). -/
def ucNameStep (gid : String) (value : String) (pos : Int) (cgid cid : String) (c : Chan)
    (w : World) : Res Outcome :=
  if c.name = value then ucParentStep gid pos cgid cid c w
  else
    let r := consumeRename gid w
    if r.1 then
      let r2 := ucParentStep gid pos cgid cid c (modifyChan r.2 gid cid (fun ch => { ch with name := value }))
      ⟨r2.w, .rename gid cid value :: r2.tr, r2.val⟩
    else ⟨r.2, [.rename gid cid value], .failed "rename"⟩

/-- `updateChannel`, drift-repair path for a live voice channel (lines
431-535): if not `manageable`, first try to grant the bot permissions
(failure returns immediately), then run the name, parent and position
checks. -/
def ucDrift (gid : String) (value : String) (pos : Int) (cgid cid : String) (c : Chan)
    (w : World) : Res Outcome :=
  if c.manageable then ucNameStep gid value pos cgid cid c w
  else
    let r := consumePermFix gid w
    if r.1 then
      let r2 := ucNameStep gid value pos cgid cid { c with manageable := true }
        (modifyChan r.2 gid cid (fun ch => { ch with manageable := true }))
      ⟨r2.w, .fixPerms gid cid :: r2.tr, r2.val⟩
    else ⟨r.2, [.fixPerms gid cid], .failed "permissions"⟩

/-- `updateChannel`, creation path (lines 402-430): create the voice
channel under the category with the desired name and position (with the
permission overwrites), persist its id; a creation throw reaches the
outer catch. -/
def ucCreate (gid : String) (k : CKind) (value : String) (pos : Int) (cgid : String)
    (w : World) : Res Outcome :=
  let c := consumeCreateChan gid w
  match c.1 with
  | none => ⟨c.2, [.createChan gid value cgid pos], .failed "createChannel"⟩
  | some nid =>
      let w1 :=
        match lookupGuild c.2 gid with
        | none => c.2
        | some g =>
            setGuild c.2 gid
              { g with channels := updateAssoc g.channels nid ⟨.voice, value, some cgid, pos, true⟩ }
      ⟨setMapChild w1 gid k (some nid), [.createChan gid value cgid pos, .storeWrite (childKey k gid)],
        .converged⟩

/-- `updateChannel`, child phase (lines 349-535): read the stored child id;
live voice channel ⇒ drift repair; missing / not a voice channel ⇒ clear
the stored id and create. -/
def ucChild (gid : String) (k : CKind) (value : String) (pos : Int) (cgid : String)
    (w : World) : Res Outcome :=
  let ck := childKey k gid
  match getChild (getMapW w gid) k with
  | none =>
      let r := ucCreate gid k value pos cgid w
      ⟨r.w, .storeRead ck :: r.tr, r.val⟩
  | some cid =>
      match lookupChan w gid cid with
      | none =>
          let r := ucCreate gid k value pos cgid (setMapChild w gid k none)
          ⟨r.w, .storeRead ck :: .storeDel ck :: r.tr, r.val⟩
      | some c =>
          if c.ctype = .voice then
            let r := ucDrift gid value pos cgid cid c w
            ⟨r.w, .storeRead ck :: r.tr, r.val⟩
          else
            let r := ucCreate gid k value pos cgid (setMapChild w gid k none)
            ⟨r.w, .storeRead ck :: .storeDel ck :: r.tr, r.val⟩

/-- `updateChannel`, group recreation catch (lines 335-347): clear the
stored group id, create a fresh group, refetch it; a creation throw
reaches the outer catch. -/
def ucRecreate (gid : String) (k : CKind) (value : String) (pos : Int) (w : World)
    (tr0 : List Ev) : Res Outcome :=
  let rc := createChannelGroup gid (setMapGroup w gid none)
  match rc.val with
  | .error e => ⟨rc.w, tr0 ++ .storeDel (.group gid) :: rc.tr, .failed e⟩
  | .ok n =>
      match lookupChan rc.w gid n with
      | none => ⟨rc.w, tr0 ++ .storeDel (.group gid) :: rc.tr, .failed "groupRefetch"⟩
      | some _ =>
          let r := ucChild gid k value pos n rc.w
          ⟨r.w, (tr0 ++ .storeDel (.group gid) :: rc.tr) ++ r.tr, r.val⟩

/-- `updateChannel` after the permission gate (lines 317-347): ensure the
group exists, fetch it and verify it is a category, recreating it
otherwise, then process the child channel. -/
def ucGroupPhase (gid : String) (k : CKind) (value : String) (pos : Int) (w : World) :
    Res Outcome :=
  let re := ensureChannelGroupExists gid w
  match re.val with
  | .error e => ⟨re.w, re.tr, .failed e⟩
  | .ok cgid =>
      match lookupChan re.w gid cgid with
      | some c =>
          if c.ctype = .category then
            let r := ucChild gid k value pos cgid re.w
            ⟨r.w, re.tr ++ r.tr, r.val⟩
          else ucRecreate gid k value pos re.w re.tr
      | none => ucRecreate gid k value pos re.w re.tr

/-- `updateChannel` (lines 272-541): fetch guild and bot member, check
`ManageChannels`, `ViewChannel` and the highest role position (each
failure returns early), then reconcile group and child.  The outer
`catch` turns any escaped throw into a logged return, recorded here as
`Outcome.failed`.  The leading `reconcile` event marks the invocation
and the desired name. -/
def updateChannel (gid : String) (k : CKind) (value : String) (pos : Int) (w : World) :
    Res Outcome :=
  let body : Res Outcome :=
    match lookupGuild w gid with
    | none => ⟨w, [], Outcome.failed "guildFetch"⟩
    | some g =>
        if g.memberOk then
          if g.hasManage then
            if g.hasView then
              if g.rolePos = 0 then ⟨w, [], Outcome.permissionDenied⟩
              else ucGroupPhase gid k value pos w
            else ⟨w, [], Outcome.permissionDenied⟩
          else ⟨w, [], Outcome.permissionDenied⟩
        else ⟨w, [], Outcome.failed "memberFetch"⟩
  ⟨body.w, .reconcile gid k value :: body.tr, body.val⟩

/-- `updatePriceChannel` (lines 543-546). -/
def updatePriceChannel (gid : String) (price : Option ℚ) (w : World) : Res Outcome :=
  updateChannel gid .price ("$BIG: " ++ formatPriceOpt price) 0 w

/-- `updateHalveningChannel` (lines 548-554), for a numeric argument (the
`undefined` case throws in `formatNumber` and is handled at call sites). -/
def updateHalveningChannel (gid : String) (blocksUntilHalving : ℚ) (w : World) : Res Outcome :=
  updateChannel gid .halv ("HALVENING: " ++ compact blocksUntilHalving) 1 w

/-! ## Scheduler pass and lifecycle handlers (lines 151-166, 564-576) -/

/-- One guild's share of a scheduled pass: price channel then halvening
channel, threading the world and appending both call traces. -/
def passStep (price : Option ℚ) (b : ℚ) (acc : World × List Ev) (gid : String) :
    World × List Ev :=
  let r1 := updatePriceChannel gid price acc.1
  let r2 := updateHalveningChannel gid b r1.w
  (r2.w, acc.2 ++ r1.tr ++ r2.tr)

/-- `updatePrice` (lines 151-166): `getStats()` once (a throw aborts the
pass), `getGuilds()`, log (the log's `formatNumber(blocksUntilHalving)`
throws a `TypeError` if that field was missing), then reconcile each
registered guild sequentially against the single fetched snapshot. -/
def updatePrice (w : World) : Res (Except String Unit) :=
  let s := consumeStats w
  match getStats s.1 with
  | .error e => ⟨s.2, [.fetchStats], .error e⟩
  | .ok pr =>
      let guilds := getGuilds s.2
      match pr.2 with
      | none => ⟨s.2, [.fetchStats, .storeRead .registry], .error "TypeError"⟩
      | some b =>
          if guilds = [] then ⟨s.2, [.fetchStats, .storeRead .registry], .ok ()⟩
          else
            let fin := guilds.foldl (passStep pr.1 b) (s.2, [.fetchStats, .storeRead .registry])
            ⟨fin.1, fin.2, .ok ()⟩

/-- `addGuild` (lines 77-87): read the registry, append the guild id and
write back `Array.from(new Set(...))`.  (`getGuilds` returns an array, so
the `!guilds` branch of the source is unreachable.) -/
def addGuild (gid : String) (w : World) : Res Unit :=
  ⟨setRegistry w (some (dedupFirst (getGuilds w ++ [gid]))),
    [.storeRead .registry, .storeWrite .registry], ()⟩

/-- `removeGuild` (lines 89-99): read the registry; if empty return,
otherwise write back the deduplicated list with the guild id filtered out. -/
def removeGuild (gid : String) (w : World) : Res Unit :=
  if getGuilds w = [] then ⟨w, [.storeRead .registry], ()⟩
  else
    ⟨setRegistry w (some (dedupFirst ((getGuilds w).filter (· ≠ gid)))),
      [.storeRead .registry, .storeWrite .registry], ()⟩

/-- The `guildCreate` handler (lines 564-569): fetch stats (a throw aborts
the handler), update the price channel, update the halvening channel
(whose `formatNumber` throws on a missing field), then `addGuild`. -/
def onGuildCreate (gid : String) (w : World) : Res (Except String Unit) :=
  let s := consumeStats w
  match getStats s.1 with
  | .error e => ⟨s.2, [.fetchStats], .error e⟩
  | .ok pr =>
      let r1 := updatePriceChannel gid pr.1 s.2
      match pr.2 with
      | none => ⟨r1.w, .fetchStats :: r1.tr, .error "TypeError"⟩
      | some b =>
          let r2 := updateHalveningChannel gid b r1.w
          let r3 := addGuild gid r2.w
          ⟨r3.w, .fetchStats :: (r1.tr ++ r2.tr ++ r3.tr), .ok ()⟩

/-- Best-effort `channel.delete()` attempt: consume the delete plan and,
on success, drop the channel from the guild's channel list. -/
def delChanW (gid cid : String) (w : World) : World :=
  let r := consumeDel gid w
  if r.1 then
    match lookupGuild r.2 gid with
    | none => r.2
    | some g2 =>
        setGuild r.2 gid { g2 with channels := g2.channels.filter (fun pr => pr.1 ≠ cid) }
  else r.2

/-- Shared shape of `removePriceChannel` (lines 224-246) and
`removeHalveningChannel` (lines 248-270): inside an outer `try`, fetch
the guild and read the stored id; if present, best-effort delete the
channel (any error logged and swallowed), then delete the Redis key.
The outer `catch` swallows a guild-fetch throw — in that case the Redis
key is never deleted. -/
def removeChildChannel (k : CKind) (gid : String) (w : World) : Res Unit :=
  match lookupGuild w gid with
  | none => ⟨w, [], ()⟩
  | some g =>
      let ck := childKey k gid
      match getChild (getMapW w gid) k with
      | none => ⟨w, [.storeRead ck], ()⟩
      | some cid =>
          match alookup g.channels cid with
          | none => ⟨setMapChild w gid k none, [.storeRead ck, .storeDel ck], ()⟩
          | some _ =>
              ⟨setMapChild (delChanW gid cid w) gid k none,
                [.storeRead ck, .delChan gid cid, .storeDel ck], ()⟩

def removePriceChannel (gid : String) (w : World) : Res Unit :=
  removeChildChannel .price gid w

def removeHalveningChannel (gid : String) (w : World) : Res Unit :=
  removeChildChannel .halv gid w

/-- `removeChannelGroup` (lines 205-222): the guild fetch is NOT inside a
`try` — if the guild is gone the throw escapes to the caller and the
Redis key survives.  Otherwise: read the stored id; if present,
best-effort delete the category (errors swallowed) and delete the key. -/
def removeChannelGroup (gid : String) (w : World) : Res (Except String Unit) :=
  match lookupGuild w gid with
  | none => ⟨w, [], .error "guildFetch"⟩
  | some g =>
      match (getMapW w gid).group with
      | none => ⟨w, [.storeRead (.group gid)], .ok ()⟩
      | some cid =>
          match alookup g.channels cid with
          | none => ⟨setMapGroup w gid none, [.storeRead (.group gid), .storeDel (.group gid)], .ok ()⟩
          | some _ =>
              ⟨setMapGroup (delChanW gid cid w) gid none,
                [.storeRead (.group gid), .delChan gid cid, .storeDel (.group gid)], .ok ()⟩

/-- The `guildDelete` handler (lines 571-576): `removeGuild`, then the two
child removers, then `removeChannelGroup` (whose guild-fetch throw, if
any, escapes the handler). -/
def onGuildDelete (gid : String) (w : World) : Res (Except String Unit) :=
  let r1 := removeGuild gid w
  let r2 := removePriceChannel gid r1.w
  let r3 := removeHalveningChannel gid r2.w
  let r4 := removeChannelGroup gid r3.w
  ⟨r4.w, r1.tr ++ r2.tr ++ r3.tr ++ r4.tr, r4.val⟩

/-! ## Classification of calls -/

/-- Platform mutation calls (create / permission-overwrite / rename /
reparent / reposition / delete). -/
def isMutationEv : Ev → Bool
  | .createGroup _ => true
  | .createChan _ _ _ _ => true
  | .fixPerms _ _ => true
  | .rename _ _ _ => true
  | .reparent _ _ _ => true
  | .reposition _ _ _ => true
  | .delChan _ _ => true
  | _ => false

/-- Store writes (`redis.set` / `redis.del`). -/
def isStoreWriteEv : Ev → Bool
  | .storeWrite _ => true
  | .storeDel _ => true
  | _ => false

/-- Any store access (read or write). -/
def isStoreEv : Ev → Bool
  | .storeRead _ => true
  | .storeWrite _ => true
  | .storeDel _ => true
  | _ => false

/-- Calls that touch global state: the stats endpoint or the registry key. -/
def touchesGlobal : Ev → Bool
  | .fetchStats => true
  | .storeRead .registry => true
  | .storeWrite .registry => true
  | .storeDel .registry => true
  | _ => false

def isRegistryWrite : Ev → Bool
  | .storeWrite .registry => true
  | _ => false

def isReconcileEv : Ev → Bool
  | .reconcile _ _ _ => true
  | _ => false

/-- Does a registry write occur strictly before the first reconciliation
in a call trace?  (Vacuously `false` when no registry write occurs.) -/
def regBeforeRecon : List Ev → Bool
  | [] => false
  | e :: rest =>
      if isRegistryWrite e then true
      else if isReconcileEv e then false
      else regBeforeRecon rest


/-! ## Concrete fixtures used by witnesses and counterexamples -/

/-- A guild where the bot has every permission, one role, and all mutation
plans empty (mutations succeed, creations fail). -/
def baseGuild : Guild := ⟨[], true, true, 1, true, [], [], [], [], [], [], []⟩

/-- A fully converged guild: live category `g1`, live price channel `p1`
named `$BIG: $1.0000` at position 0, live halvening channel `h1` named
`HALVENING: 2` at position 1, all manageable. -/
def gC1 : Guild :=
  { baseGuild with channels :=
      [("g1", ⟨.category, "🌕 BIGCOIN", none, 0, true⟩),
       ("p1", ⟨.voice, "$BIG: $1.0000", some "g1", 0, true⟩),
       ("h1", ⟨.voice, "HALVENING: 2", some "g1", 1, true⟩)] }

def wC1 : World :=
  ⟨some ["t1"], [("t1", gC1)], [("t1", ⟨some "g1", some "p1", some "h1"⟩)], []⟩

/-- A guild where the bot lacks `ManageChannels`. -/
def gC2 : Guild := { baseGuild with hasManage := false }

def wC2 : World :=
  ⟨some ["t1"], [("t1", gC2)], [("t1", ⟨some "g1", none, none⟩)], []⟩

/-- Live category, no child channels; the next channel creation fails and
the one after succeeds with id `h1`. -/
def gC4 : Guild :=
  { baseGuild with
      channels := [("g1", ⟨.category, "🌕 BIGCOIN", none, 0, true⟩)],
      createChanPlan := [none, some "h1"] }

def wC4 : World :=
  ⟨some ["t1"], [("t1", gC4)], [("t1", ⟨some "g1", none, none⟩)],
    [.ok ⟨some 1, some 2⟩]⟩

/-- Live price channel with wrong name, wrong parent and wrong position;
the rename attempt fails. -/
def gC5x : Guild :=
  { baseGuild with
      channels :=
        [("g1", ⟨.category, "🌕 BIGCOIN", none, 0, true⟩),
         ("p1", ⟨.voice, "OLD", some "x", 5, true⟩)],
      renamePlan := [false] }

def wC5x : World := ⟨some ["t1"], [("t1", gC5x)], [("t1", ⟨some "g1", some "p1", none⟩)], []⟩

/-- Live price channel with correct name but wrong parent and wrong
position; the move attempt fails. -/
def gC5 : Guild :=
  { baseGuild with
      channels :=
        [("g1", ⟨.category, "🌕 BIGCOIN", none, 0, true⟩),
         ("p1", ⟨.voice, "N", some "x", 5, true⟩)],
      movePlan := [false] }

def wC5 : World := ⟨some ["t1"], [("t1", gC5)], [("t1", ⟨some "g1", some "p1", none⟩)], []⟩

/-- A fresh world about to receive its first join event. -/
def wC6 : World := ⟨none, [], [], [.ok ⟨some 1, some 2⟩]⟩

/-- A tenant that has vanished from the platform but still has a registry
entry and all three mapping entries. -/
def wC7x : World := ⟨some ["t1"], [], [("t1", ⟨some "g", some "p", some "h"⟩)], []⟩

def gC7 : Guild :=
  { baseGuild with channels :=
      [("g", ⟨.category, "🌕 BIGCOIN", none, 0, true⟩),
       ("p", ⟨.voice, "a", some "g", 0, true⟩),
       ("h", ⟨.voice, "b", some "g", 1, true⟩)] }

/-- A still-fetchable tenant `t1` (and a second registered tenant `t2`). -/
def wC7 : World :=
  ⟨some ["t1", "t2"], [("t1", gC7)], [("t1", ⟨some "g", some "p", some "h"⟩)], []⟩

/-- Two registered tenants and one pending stats result. -/
def wC8 : World := ⟨some ["t1", "t2"], [], [], [.ok ⟨some 1, some 2⟩]⟩

/-- A stored group id `g1` whose category is still live. -/
def gC10 : Guild :=
  { baseGuild with channels := [("g1", ⟨.category, "🌕 BIGCOIN", none, 0, true⟩)] }

def wC10 : World := ⟨none, [("t1", gC10)], [("t1", ⟨some "g1", none, none⟩)], []⟩

/-! ## Association-list and registry lemmas -/

theorem alookup_updateAssoc_self {α : Type} (l : List (String × α)) (k : String) (v : α) :
    alookup (updateAssoc l k v) k = some v := by
  induction l with
  | nil => simp [alookup, updateAssoc]
  | cons hd tl ih =>
      obtain ⟨k', v'⟩ := hd
      by_cases h : k' = k <;> simp [alookup, updateAssoc, h, ih]

theorem alookup_updateAssoc_ne {α : Type} (l : List (String × α)) (k j : String) (v : α)
    (h : k ≠ j) : alookup (updateAssoc l k v) j = alookup l j := by
  induction l with
  | nil => simp [alookup, updateAssoc, h]
  | cons hd tl ih =>
      obtain ⟨k', v'⟩ := hd
      by_cases hk : k' = k
      · subst hk; simp [alookup, updateAssoc, h]
      · simp [alookup, updateAssoc, hk, ih]

theorem getMapW_setMapW_self (w : World) (gid : String) (m : Mapping) :
    getMapW (setMapW w gid m) gid = m := by
  simp [getMapW, setMapW, alookup_updateAssoc_self]

theorem lookupGuild_setGuild_self (w : World) (gid : String) (g : Guild) :
    lookupGuild (setGuild w gid g) gid = some g := by
  simp [lookupGuild, setGuild, alookup_updateAssoc_self]

theorem setMapW_registry (w : World) (gid : String) (m : Mapping) :
    (setMapW w gid m).registry = w.registry := rfl

theorem setMapW_guilds (w : World) (gid : String) (m : Mapping) :
    (setMapW w gid m).guilds = w.guilds := rfl

theorem setGuild_registry (w : World) (gid : String) (g : Guild) :
    (setGuild w gid g).registry = w.registry := rfl

theorem setGuild_maps (w : World) (gid : String) (g : Guild) :
    (setGuild w gid g).maps = w.maps := rfl

theorem setMapGroup_registry (w : World) (gid : String) (o : Option String) :
    (setMapGroup w gid o).registry = w.registry := rfl

theorem setMapGroup_guilds (w : World) (gid : String) (o : Option String) :
    (setMapGroup w gid o).guilds = w.guilds := rfl

theorem setMapChild_registry (w : World) (gid : String) (k : CKind) (o : Option String) :
    (setMapChild w gid k o).registry = w.registry := by
  cases k <;> rfl

theorem setMapChild_guilds (w : World) (gid : String) (k : CKind) (o : Option String) :
    (setMapChild w gid k o).guilds = w.guilds := by
  cases k <;> rfl

theorem modifyChan_registry (w : World) (gid cid : String) (f : Chan → Chan) :
    (modifyChan w gid cid f).registry = w.registry := by
  unfold modifyChan; split <;> rfl

theorem modifyChan_maps (w : World) (gid cid : String) (f : Chan → Chan) :
    (modifyChan w gid cid f).maps = w.maps := by
  unfold modifyChan; split <;> rfl

theorem consumePermFix_registry (gid : String) (w : World) :
    (consumePermFix gid w).2.registry = w.registry := by
  unfold consumePermFix; split
  · rfl
  · split <;> rfl

theorem consumeRename_registry (gid : String) (w : World) :
    (consumeRename gid w).2.registry = w.registry := by
  unfold consumeRename; split
  · rfl
  · split <;> rfl

theorem consumeMove_registry (gid : String) (w : World) :
    (consumeMove gid w).2.registry = w.registry := by
  unfold consumeMove; split
  · rfl
  · split <;> rfl

theorem consumePos_registry (gid : String) (w : World) :
    (consumePos gid w).2.registry = w.registry := by
  unfold consumePos; split
  · rfl
  · split <;> rfl

theorem consumeCreateGroup_registry (gid : String) (w : World) :
    (consumeCreateGroup gid w).2.registry = w.registry := by
  unfold consumeCreateGroup; split
  · rfl
  · split <;> rfl

theorem consumeCreateChan_registry (gid : String) (w : World) :
    (consumeCreateChan gid w).2.registry = w.registry := by
  unfold consumeCreateChan; split
  · rfl
  · split <;> rfl

/-! ## `Array.from(new Set(...))` lemmas -/

theorem mem_dedupAcc {x : String} :
    ∀ (seen l : List String), x ∈ dedupAcc seen l → x ∈ l := by
  intro seen l
  induction l generalizing seen with
  | nil => simp [dedupAcc]
  | cons hd tl ih =>
      intro h
      simp only [dedupAcc] at h
      by_cases hm : hd ∈ seen
      · simp [hm] at h
        exact List.mem_cons_of_mem _ (ih _ h)
      · simp [hm] at h
        rcases h with h | h
        · simp [h]
        · exact List.mem_cons_of_mem _ (ih _ h)

theorem dedupAcc_append_mem (g : String) :
    ∀ (l seen : List String), (g ∈ seen ∨ g ∈ l) →
      dedupAcc seen (l ++ [g]) = dedupAcc seen l := by
  intro l
  induction l with
  | nil =>
      intro seen h
      rcases h with h | h
      · simp [dedupAcc, h]
      · simp at h
  | cons hd tl ih =>
      intro seen h
      by_cases hm : hd ∈ seen
      · simp only [List.cons_append, dedupAcc, if_pos hm]
        apply ih
        rcases h with h | h
        · exact Or.inl h
        · rcases List.mem_cons.mp h with h | h
          · exact Or.inl (h ▸ hm)
          · exact Or.inr h
      · simp only [List.cons_append, dedupAcc, if_neg hm, List.append_eq]
        rw [ih]
        rcases h with h | h
        · exact Or.inl (List.mem_cons_of_mem _ h)
        · rcases List.mem_cons.mp h with h | h
          · exact Or.inl (by simp [h])
          · exact Or.inr h

theorem dedupAcc_nodup_id :
    ∀ (l seen : List String), l.Nodup → (∀ x ∈ l, x ∉ seen) → dedupAcc seen l = l := by
  intro l
  induction l with
  | nil => intro seen _ _; rfl
  | cons hd tl ih =>
      intro seen hnd hdis
      have hhd : hd ∉ seen := hdis hd (by simp)
      simp only [dedupAcc, if_neg hhd]
      congr 1
      apply ih _ (List.Nodup.of_cons hnd)
      intro x hx
      simp only [List.mem_cons, not_or]
      exact ⟨fun hxh => (List.nodup_cons.mp hnd).1 (hxh ▸ hx), hdis x (List.mem_cons_of_mem _ hx)⟩

theorem dedupFirst_append_mem {g : String} {l : List String} (h : g ∈ l) :
    dedupFirst (l ++ [g]) = dedupFirst l :=
  dedupAcc_append_mem g l [] (Or.inr h)

theorem dedupFirst_nodup_id {l : List String} (h : l.Nodup) : dedupFirst l = l :=
  dedupAcc_nodup_id l [] h (by simp)

theorem not_mem_dedupFirst_filter (gid : String) (l : List String) :
    gid ∉ dedupFirst (l.filter (· ≠ gid)) := by
  intro h
  have := mem_dedupAcc [] _ h
  simp at this

/-! ## The reconciler never touches the registry or the stats endpoint -/

theorem createChannelGroup_noGlobal (gid : String) (w : World) :
    ((createChannelGroup gid w).tr.any touchesGlobal) = false ∧
      (createChannelGroup gid w).w.registry = w.registry := by
  simp only [createChannelGroup]
  split
  · simp
  · split
    · simp [touchesGlobal, consumeCreateGroup_registry]
    · split <;>
        simp [touchesGlobal, setMapGroup_registry, setGuild_registry, consumeCreateGroup_registry]

theorem ensureChannelGroupExists_noGlobal (gid : String) (w : World) :
    ((ensureChannelGroupExists gid w).tr.any touchesGlobal) = false ∧
      (ensureChannelGroupExists gid w).w.registry = w.registry := by
  simp only [ensureChannelGroupExists]
  split
  · simp
  · split
    · simp [touchesGlobal, (createChannelGroup_noGlobal gid w).1, (createChannelGroup_noGlobal gid w).2]
    · split
      · simp [touchesGlobal]
      · have h := createChannelGroup_noGlobal gid (setMapGroup w gid none)
        simp [touchesGlobal, h.1, h.2, setMapGroup_registry]

theorem ucCreate_noGlobal (gid : String) (k : CKind) (value : String) (pos : Int)
    (cgid : String) (w : World) :
    ((ucCreate gid k value pos cgid w).tr.any touchesGlobal) = false ∧
      (ucCreate gid k value pos cgid w).w.registry = w.registry := by
  simp only [ucCreate]
  split
  · simp [touchesGlobal, consumeCreateChan_registry]
  · constructor
    · cases k <;> simp [touchesGlobal, childKey]
    · split <;>
        simp [setMapChild_registry, setGuild_registry, consumeCreateChan_registry]

theorem ucPosStep_noGlobal (gid : String) (pos : Int) (cid : String) (c : Chan) (w : World) :
    ((ucPosStep gid pos cid c w).tr.any touchesGlobal) = false ∧
      (ucPosStep gid pos cid c w).w.registry = w.registry := by
  simp only [ucPosStep]
  split
  · simp
  · constructor
    · simp [touchesGlobal]
    · split <;> simp [modifyChan_registry, consumePos_registry]

theorem ucParentStep_noGlobal (gid : String) (pos : Int) (cgid cid : String) (c : Chan)
    (w : World) :
    ((ucParentStep gid pos cgid cid c w).tr.any touchesGlobal) = false ∧
      (ucParentStep gid pos cgid cid c w).w.registry = w.registry := by
  have h1 : ∀ w', ((ucPosStep gid pos cid c w').tr.any touchesGlobal) = false :=
    fun w' => (ucPosStep_noGlobal gid pos cid c w').1
  have h2 : ∀ w', (ucPosStep gid pos cid c w').w.registry = w'.registry :=
    fun w' => (ucPosStep_noGlobal gid pos cid c w').2
  simp only [ucParentStep]
  split
  · exact ucPosStep_noGlobal gid pos cid c w
  · constructor
    · simp [touchesGlobal, h1]
    · rw [h2]
      split <;> simp [modifyChan_registry, consumeMove_registry]

theorem ucNameStep_noGlobal (gid : String) (value : String) (pos : Int) (cgid cid : String)
    (c : Chan) (w : World) :
    ((ucNameStep gid value pos cgid cid c w).tr.any touchesGlobal) = false ∧
      (ucNameStep gid value pos cgid cid c w).w.registry = w.registry := by
  have h1 : ∀ c' w', ((ucParentStep gid pos cgid cid c' w').tr.any touchesGlobal) = false :=
    fun c' w' => (ucParentStep_noGlobal gid pos cgid cid c' w').1
  have h2 : ∀ c' w', (ucParentStep gid pos cgid cid c' w').w.registry = w'.registry :=
    fun c' w' => (ucParentStep_noGlobal gid pos cgid cid c' w').2
  simp only [ucNameStep]
  split
  · exact ucParentStep_noGlobal gid pos cgid cid c w
  · split
    · constructor
      · simp [touchesGlobal, h1]
      · rw [h2, modifyChan_registry, consumeRename_registry]
    · simp [touchesGlobal, consumeRename_registry]

theorem ucDrift_noGlobal (gid : String) (value : String) (pos : Int) (cgid cid : String)
    (c : Chan) (w : World) :
    ((ucDrift gid value pos cgid cid c w).tr.any touchesGlobal) = false ∧
      (ucDrift gid value pos cgid cid c w).w.registry = w.registry := by
  have h1 : ∀ c' w', ((ucNameStep gid value pos cgid cid c' w').tr.any touchesGlobal) = false :=
    fun c' w' => (ucNameStep_noGlobal gid value pos cgid cid c' w').1
  have h2 : ∀ c' w', (ucNameStep gid value pos cgid cid c' w').w.registry = w'.registry :=
    fun c' w' => (ucNameStep_noGlobal gid value pos cgid cid c' w').2
  simp only [ucDrift]
  split
  · exact ucNameStep_noGlobal gid value pos cgid cid c w
  · split
    · constructor
      · simp [touchesGlobal, h1]
      · rw [h2, modifyChan_registry, consumePermFix_registry]
    · simp [touchesGlobal, consumePermFix_registry]

theorem ucChild_noGlobal (gid : String) (k : CKind) (value : String) (pos : Int)
    (cgid : String) (w : World) :
    ((ucChild gid k value pos cgid w).tr.any touchesGlobal) = false ∧
      (ucChild gid k value pos cgid w).w.registry = w.registry := by
  have hck : touchesGlobal (Ev.storeRead (childKey k gid)) = false := by
    cases k <;> simp [touchesGlobal, childKey]
  have hck2 : touchesGlobal (Ev.storeDel (childKey k gid)) = false := by
    cases k <;> simp [touchesGlobal, childKey]
  have h1 : ∀ w', ((ucCreate gid k value pos cgid w').tr.any touchesGlobal) = false :=
    fun w' => (ucCreate_noGlobal gid k value pos cgid w').1
  have h2 : ∀ w', (ucCreate gid k value pos cgid w').w.registry = w'.registry :=
    fun w' => (ucCreate_noGlobal gid k value pos cgid w').2
  have h3 : ∀ cid c w', ((ucDrift gid value pos cgid cid c w').tr.any touchesGlobal) = false :=
    fun cid c w' => (ucDrift_noGlobal gid value pos cgid cid c w').1
  have h4 : ∀ cid c w', (ucDrift gid value pos cgid cid c w').w.registry = w'.registry :=
    fun cid c w' => (ucDrift_noGlobal gid value pos cgid cid c w').2
  simp only [ucChild]
  split
  · simp [hck, h1, h2]
  · split
    · simp [hck, hck2, h1, h2, setMapChild_registry]
    · split
      · simp [hck, h3, h4]
      · simp [hck, hck2, h1, h2, setMapChild_registry]

theorem ucRecreate_noGlobal (gid : String) (k : CKind) (value : String) (pos : Int)
    (w : World) (tr0 : List Ev) (h0 : tr0.any touchesGlobal = false) :
    ((ucRecreate gid k value pos w tr0).tr.any touchesGlobal) = false ∧
      (ucRecreate gid k value pos w tr0).w.registry = w.registry := by
  have hc := createChannelGroup_noGlobal gid (setMapGroup w gid none)
  have h1 : ∀ cgid w', ((ucChild gid k value pos cgid w').tr.any touchesGlobal) = false :=
    fun cgid w' => (ucChild_noGlobal gid k value pos cgid w').1
  have h2 : ∀ cgid w', (ucChild gid k value pos cgid w').w.registry = w'.registry :=
    fun cgid w' => (ucChild_noGlobal gid k value pos cgid w').2
  simp only [ucRecreate]
  split
  · simp [h0, touchesGlobal, hc.1, hc.2, setMapGroup_registry]
  · split
    · simp [h0, touchesGlobal, hc.1, hc.2, setMapGroup_registry]
    · constructor
      · simp [h0, touchesGlobal, hc.1, h1]
      · rw [h2]
        have := hc.2
        rw [setMapGroup_registry] at this
        exact this

theorem ucGroupPhase_noGlobal (gid : String) (k : CKind) (value : String) (pos : Int)
    (w : World) :
    ((ucGroupPhase gid k value pos w).tr.any touchesGlobal) = false ∧
      (ucGroupPhase gid k value pos w).w.registry = w.registry := by
  have he := ensureChannelGroupExists_noGlobal gid w
  have h1 : ∀ cgid w', ((ucChild gid k value pos cgid w').tr.any touchesGlobal) = false :=
    fun cgid w' => (ucChild_noGlobal gid k value pos cgid w').1
  have h2 : ∀ cgid w', (ucChild gid k value pos cgid w').w.registry = w'.registry :=
    fun cgid w' => (ucChild_noGlobal gid k value pos cgid w').2
  have h3 : ∀ tr0, tr0.any touchesGlobal = false →
      ((ucRecreate gid k value pos (ensureChannelGroupExists gid w).w tr0).tr.any touchesGlobal) = false ∧
        (ucRecreate gid k value pos (ensureChannelGroupExists gid w).w tr0).w.registry =
          (ensureChannelGroupExists gid w).w.registry :=
    fun tr0 h0 => ucRecreate_noGlobal gid k value pos (ensureChannelGroupExists gid w).w tr0 h0
  simp only [ucGroupPhase]
  split
  · exact he
  · split
    · split
      · simp [he.1, he.2, h1, h2]
      · have := h3 (ensureChannelGroupExists gid w).tr he.1
        simp [this.1, this.2, he.2]
    · have := h3 (ensureChannelGroupExists gid w).tr he.1
      simp [this.1, this.2, he.2]

theorem updateChannel_noGlobal (gid : String) (k : CKind) (value : String) (pos : Int)
    (w : World) :
    ((updateChannel gid k value pos w).tr.any touchesGlobal) = false ∧
      (updateChannel gid k value pos w).w.registry = w.registry := by
  have hg := ucGroupPhase_noGlobal gid k value pos w
  simp only [updateChannel]
  split
  · simp [touchesGlobal]
  · split
    · split
      · split
        · split
          · simp [touchesGlobal]
          · simp [touchesGlobal, hg.1, hg.2]
        · simp [touchesGlobal]
      · simp [touchesGlobal]
    · simp [touchesGlobal]

/-! ## Evaluation helpers for concrete display strings -/

theorem formatPrice_one : formatPrice 1 = "$1.0000" := by
  norm_num [formatPrice, fmtAbsPrice, natHalfRound, natFloor]
  decide

theorem compact_two : compact 2 = "2" := by
  norm_num [compact, compactAbs, natHalfRound, natFloor]
  decide

/-! ## C1: a second reconciliation pass over a converged tenant mutates nothing -/

/-- A single `updateChannel` run against a converged tenant (live category
at the stored group id, live manageable voice channel at the stored child
id with the desired name, parent and position) performs exactly the three
store reads and returns `converged`: the world is unchanged. -/
theorem updateChannel_converged_noop (gid : String) (k : CKind) (value : String) (pos : Int)
    (w : World) (g : Guild) (cg cid : String) (gc : Chan)
    (hg : lookupGuild w gid = some g)
    (hmem : g.memberOk = true) (hman : g.hasManage = true) (hview : g.hasView = true)
    (hrole : g.rolePos ≠ 0)
    (hgrp : (getMapW w gid).group = some cg)
    (hgc : alookup g.channels cg = some gc) (hgct : gc.ctype = .category)
    (hchild : getChild (getMapW w gid) k = some cid)
    (hcc : alookup g.channels cid = some ⟨.voice, value, some cg, pos, true⟩) :
    updateChannel gid k value pos w =
      ⟨w, [.reconcile gid k value, .storeRead (.group gid), .storeRead (childKey k gid)],
        .converged⟩ := by
  simp only [updateChannel, ucGroupPhase, ensureChannelGroupExists, ucChild, ucDrift,
    ucNameStep, ucParentStep, ucPosStep, lookupChan, hg, hmem, hman, hview, hrole, hgrp, hgc,
    hgct, hchild, hcc]
  simp

/-- C1: for a tenant already converged (stored group id and both child ids
live, with the desired name, parent and position, and manageable), a
further invocation of the reconciler for both channels issues zero
platform mutation calls, zero store writes, returns `converged` twice,
and leaves the world exactly as it was. -/
theorem reconcile_idempotent_second_pass (gid : String) (p b : ℚ) (w : World) (g : Guild)
    (cg pc hc : String) (gc : Chan)
    (hg : lookupGuild w gid = some g)
    (hmem : g.memberOk = true) (hman : g.hasManage = true) (hview : g.hasView = true)
    (hrole : g.rolePos ≠ 0)
    (hgrp : (getMapW w gid).group = some cg)
    (hgc : alookup g.channels cg = some gc) (hgct : gc.ctype = .category)
    (hpc : (getMapW w gid).price = some pc)
    (hhc : (getMapW w gid).halv = some hc)
    (hpcc : alookup g.channels pc = some ⟨.voice, "$BIG: " ++ formatPrice p, some cg, 0, true⟩)
    (hhcc : alookup g.channels hc = some ⟨.voice, "HALVENING: " ++ compact b, some cg, 1, true⟩) :
    (((updatePriceChannel gid (some p) w).tr ++
        (updateHalveningChannel gid b (updatePriceChannel gid (some p) w).w).tr).any
          isMutationEv = false) ∧
    (((updatePriceChannel gid (some p) w).tr ++
        (updateHalveningChannel gid b (updatePriceChannel gid (some p) w).w).tr).any
          isStoreWriteEv = false) ∧
    (updatePriceChannel gid (some p) w).val = .converged ∧
    (updateHalveningChannel gid b (updatePriceChannel gid (some p) w).w).val = .converged ∧
    (updateHalveningChannel gid b (updatePriceChannel gid (some p) w).w).w = w := by
  have e1 := updateChannel_converged_noop gid .price ("$BIG: " ++ formatPrice p) 0 w g cg pc gc
    hg hmem hman hview hrole hgrp hgc hgct (by simp [getChild, hpc]) hpcc
  have e2 := updateChannel_converged_noop gid .halv ("HALVENING: " ++ compact b) 1 w g cg hc gc
    hg hmem hman hview hrole hgrp hgc hgct (by simp [getChild, hhc]) hhcc
  have hp : updatePriceChannel gid (some p) w =
      ⟨w, [.reconcile gid .price ("$BIG: " ++ formatPrice p), .storeRead (.group gid),
        .storeRead (childKey .price gid)], .converged⟩ := by
    simpa [updatePriceChannel, formatPriceOpt] using e1
  rw [hp]
  have hh : updateHalveningChannel gid b w =
      ⟨w, [.reconcile gid .halv ("HALVENING: " ++ compact b), .storeRead (.group gid),
        .storeRead (childKey .halv gid)], .converged⟩ := by
    simpa [updateHalveningChannel] using e2
  rw [hh]
  simp [isMutationEv, isStoreWriteEv, childKey]

/-- C1 witness: the converged fixture `wC1` at price 1, countdown 2. -/
theorem reconcile_idempotent_second_pass_witness :
    (((updatePriceChannel "t1" (some 1) wC1).tr ++
        (updateHalveningChannel "t1" 2 (updatePriceChannel "t1" (some 1) wC1).w).tr).any
          isMutationEv = false) ∧
    (((updatePriceChannel "t1" (some 1) wC1).tr ++
        (updateHalveningChannel "t1" 2 (updatePriceChannel "t1" (some 1) wC1).w).tr).any
          isStoreWriteEv = false) ∧
    (updatePriceChannel "t1" (some 1) wC1).val = .converged ∧
    (updateHalveningChannel "t1" 2 (updatePriceChannel "t1" (some 1) wC1).w).val = .converged ∧
    (updateHalveningChannel "t1" 2 (updatePriceChannel "t1" (some 1) wC1).w).w = wC1 :=
  reconcile_idempotent_second_pass "t1" 1 2 wC1 gC1 "g1" "p1" "h1"
    ⟨.category, "🌕 BIGCOIN", none, 0, true⟩
    rfl rfl rfl rfl (by decide) rfl rfl rfl rfl rfl
    (by rw [formatPrice_one]; rfl) (by rw [compact_two]; rfl)

/-- C2: if the bot lacks `ManageChannels` or its highest role position is
0, `updateChannel` returns the permission-denied outcome having made no
platform mutation call and no store access at all (the trace is just the
invocation marker), and the world is untouched. -/
theorem reconcile_permission_short_circuit (gid : String) (k : CKind) (value : String)
    (pos : Int) (w : World) (g : Guild)
    (hg : lookupGuild w gid = some g) (hmem : g.memberOk = true)
    (hcap : g.hasManage = false ∨ g.rolePos = 0) :
    (updateChannel gid k value pos w).val = .permissionDenied ∧
    (updateChannel gid k value pos w).tr = [.reconcile gid k value] ∧
    ((updateChannel gid k value pos w).tr.any isMutationEv = false) ∧
    ((updateChannel gid k value pos w).tr.any isStoreEv = false) ∧
    (updateChannel gid k value pos w).w = w := by
  rcases hcap with hcap | hcap
  · simp [updateChannel, hg, hmem, hcap, isMutationEv, isStoreEv]
  · by_cases hm : g.hasManage
    · by_cases hv : g.hasView
      · simp [updateChannel, hg, hmem, hm, hv, hcap, isMutationEv, isStoreEv]
      · simp [updateChannel, hg, hmem, hm, hv, hcap, isMutationEv, isStoreEv]
    · simp [updateChannel, hg, hmem, hm, hcap, isMutationEv, isStoreEv]

/-- C2 witness: fixture `wC2`, where the bot lacks `ManageChannels`. -/
theorem reconcile_permission_short_circuit_witness :
    (updateChannel "t1" .price "$BIG: $1.0000" 0 wC2).val = .permissionDenied ∧
    (updateChannel "t1" .price "$BIG: $1.0000" 0 wC2).tr =
      [.reconcile "t1" .price "$BIG: $1.0000"] ∧
    ((updateChannel "t1" .price "$BIG: $1.0000" 0 wC2).tr.any isMutationEv = false) ∧
    ((updateChannel "t1" .price "$BIG: $1.0000" 0 wC2).tr.any isStoreEv = false) ∧
    (updateChannel "t1" .price "$BIG: $1.0000" 0 wC2).w = wC2 :=
  reconcile_permission_short_circuit "t1" .price "$BIG: $1.0000" 0 wC2 gC2
    rfl rfl (Or.inl rfl)

/-- `createChannelGroup` persists the fresh id before returning it. -/
theorem createChannelGroup_persists (gid : String) (w : World) (id : String)
    (h : (createChannelGroup gid w).val = .ok id) :
    (getMapW (createChannelGroup gid w).w gid).group = some id := by
  cases hlk : lookupGuild w gid with
  | none => simp [createChannelGroup, hlk] at h
  | some g =>
      cases hpl : (consumeCreateGroup gid w).1 with
      | none => simp [createChannelGroup, hlk, hpl] at h
      | some nid =>
          simp only [createChannelGroup, hlk, hpl] at h ⊢
          simp at h
          subst h
          simp [setMapGroup, getMapW_setMapW_self]

/-- C10: whenever `ensureChannelGroupExists` returns an id without
raising, the mapping store's group entry for that tenant equals that id:
on the verified path the stored id is returned unchanged, and on every
creation path the fresh id is persisted before being returned. -/
theorem ensure_group_returns_persisted_id (gid : String) (w : World) (id : String)
    (h : (ensureChannelGroupExists gid w).val = .ok id) :
    (getMapW (ensureChannelGroupExists gid w).w gid).group = some id := by
  cases hlk : lookupGuild w gid with
  | none => simp [ensureChannelGroupExists, hlk] at h
  | some g =>
      cases hgr : (getMapW w gid).group with
      | none =>
          have hp := createChannelGroup_persists gid w id
          simp only [ensureChannelGroupExists, hlk, hgr] at h ⊢
          exact hp h
      | some cgid =>
          cases hch : alookup g.channels cgid with
          | some c =>
              simp only [ensureChannelGroupExists, hlk, hgr, hch] at h ⊢
              simp at h
              subst h
              rfl
          | none =>
              have hp := createChannelGroup_persists gid (setMapGroup w gid none) id
              simp only [ensureChannelGroupExists, hlk, hgr, hch] at h ⊢
              exact hp h

/-- C10 witness: fixture `wC10` takes the verified path and returns the
stored id `g1`. -/
theorem ensure_group_returns_persisted_id_witness :
    (getMapW (ensureChannelGroupExists "t1" wC10).w "t1").group = some "g1" :=
  ensure_group_returns_persisted_id "t1" wC10 "g1" rfl

/-! ## C3: the metrics fetcher variants -/

/-- C3 counterexample: `getStats` of `src/index.ts` propagates a transport
failure to its caller instead of returning `{price: 0,
blocksUntilHalving: 0}` — the claimed guard exists only in the other
revision. -/
theorem getStats_propagates_transport_error :
    getStats (Except.error "ECONNREFUSED") = Except.error "ECONNREFUSED" := rfl

/-- C3 amended: the `part_001` revision's `getStats` never raises — on a
transport failure, a non-2xx response, or a payload missing either
numeric field it returns `(0, 0)`. -/
theorem getStatsChecked_safe_defaults (r : Except String Payload)
    (h : statsFailure r = true) : getStatsChecked r = (0, 0) := by
  cases r with
  | error e => rfl
  | ok p =>
      cases hb : p.bigPrice with
      | none => simp [getStatsChecked, hb]
      | some a =>
          cases hh : p.blocksUntilHalving with
          | none => simp [getStatsChecked, hb, hh]
          | some b => simp [statsFailure, hb, hh] at h

/-- C3 witness: a concrete transport failure. -/
theorem getStatsChecked_safe_defaults_witness :
    statsFailure (Except.error "timeout") = true ∧
      getStatsChecked (Except.error "timeout") = (0, 0) :=
  ⟨rfl, getStatsChecked_safe_defaults (Except.error "timeout") rfl⟩

/-! ## C9: the display formatters -/

/-- C9 counterexample: `formatNumber` of `src/index.ts` (parameter type
`number`) throws a `TypeError` when applied to `null`/`undefined` at
runtime; it does not return `"0"`. -/
theorem formatNumber_null_throws :
    formatNumber none = Except.error "TypeError" := rfl

/-- C9 amended: the formatter examples hold — `formatPrice 1234.5 =
"$1,234.5000"` and `1 500 000` compacts to `"1.5M"` in both revisions —
and the `part_001` revision's `formatNumber` maps `null`/`undefined` to
`"0"`, while the `src/index.ts` revision throws on `null`. -/
theorem formatter_examples :
    formatPrice (1234.5 : ℚ) = "$1,234.5000" ∧
    formatNumberChecked (some 1500000) = "1.5M" ∧
    formatNumberChecked none = "0" ∧
    formatNumber (some 1500000) = .ok "1.5M" ∧
    formatNumber none = .error "TypeError" := by
  have h15 : compact (1500000 : ℚ) = "1.5M" := by with_unfolding_all decide
  refine ⟨by with_unfolding_all decide, ?_, rfl, ?_, rfl⟩
  · simp [formatNumberChecked, h15]
  · simp [formatNumber, h15]

/-! ## C5: drift-repair check independence -/

/-- C5 counterexample: with the price channel live but wrong in name,
parent and position, a failed rename makes `updateChannel` return at
once — the parent and order checks are skipped (no `reparent`, no
`reposition` call), refuting the claim that a rename failure does not
skip the remaining checks. -/
theorem rename_failure_skips_checks_cx :
    (updateChannel "t1" .price "NEW" 0 wC5x).tr =
      [.reconcile "t1" .price "NEW", .storeRead (.group "t1"), .storeRead (.price "t1"),
        .rename "t1" "p1" "NEW"] ∧
    (updateChannel "t1" .price "NEW" 0 wC5x).val = .failed "rename" ∧
    Ev.reparent "t1" "p1" "g1" ∉ (updateChannel "t1" .price "NEW" 0 wC5x).tr ∧
    Ev.reposition "t1" "p1" 0 ∉ (updateChannel "t1" .price "NEW" 0 wC5x).tr := by
  decide

/-- C5 amended: the parent and order checks are mutually independent — a
failed move does not skip the order check (the reposition call is still
issued and the run still converges) — but a failed rename aborts the
remaining checks of that child for the pass (see the counterexample). -/
theorem move_failure_does_not_skip_order_check (gid : String) (k : CKind) (value : String)
    (pos : Int) (w : World) (g : Guild) (cg cid : String) (gc : Chan) (par : Option String)
    (cpos : Int) (rest : List Bool)
    (hg : lookupGuild w gid = some g)
    (hmem : g.memberOk = true) (hman : g.hasManage = true) (hview : g.hasView = true)
    (hrole : g.rolePos ≠ 0)
    (hgrp : (getMapW w gid).group = some cg)
    (hgc : alookup g.channels cg = some gc) (hgct : gc.ctype = .category)
    (hchild : getChild (getMapW w gid) k = some cid)
    (hcc : alookup g.channels cid = some ⟨.voice, value, par, cpos, true⟩)
    (hpar : par ≠ some cg)
    (hmove : g.movePlan = false :: rest)
    (hpos : cpos ≠ pos) :
    (updateChannel gid k value pos w).tr =
      [.reconcile gid k value, .storeRead (.group gid), .storeRead (childKey k gid),
        .reparent gid cid cg, .reposition gid cid pos] ∧
    (updateChannel gid k value pos w).val = .converged := by
  simp only [updateChannel, ucGroupPhase, ensureChannelGroupExists, ucChild, ucDrift,
    ucNameStep, ucParentStep, ucPosStep, lookupChan, consumeMove, hg, hmem, hman, hview,
    hrole, hgrp, hgc, hgct, hchild, hcc, hmove, hpar, hpos]
  simp [hpar, hpos]

/-- C5 witness: fixture `wC5` (name correct, parent and position wrong,
move fails). -/
theorem move_failure_does_not_skip_order_check_witness :
    (updateChannel "t1" .price "N" 0 wC5).tr =
      [.reconcile "t1" .price "N", .storeRead (.group "t1"), .storeRead (.price "t1"),
        .reparent "t1" "p1" "g1", .reposition "t1" "p1" 0] ∧
    (updateChannel "t1" .price "N" 0 wC5).val = .converged :=
  move_failure_does_not_skip_order_check "t1" .price "N" 0 wC5 gC5 "g1" "p1"
    ⟨.category, "🌕 BIGCOIN", none, 0, true⟩ (some "x") 5 []
    rfl rfl rfl rfl (by decide) rfl rfl rfl rfl rfl (by decide) rfl (by decide)

/-! ## C8: one fetch per scheduled pass -/

theorem not_fetchStats_of_noGlobal {l : List Ev} (h : l.any touchesGlobal = false) :
    Ev.fetchStats ∉ l := by
  intro hm
  rw [List.any_eq_false] at h
  exact absurd (h _ hm) (by simp [touchesGlobal])

theorem updateChannel_tr_head (gid : String) (k : CKind) (value : String) (pos : Int)
    (w : World) :
    ∃ t, (updateChannel gid k value pos w).tr = .reconcile gid k value :: t :=
  ⟨_, rfl⟩

theorem updatePriceChannel_head_mem (gid : String) (op : Option ℚ) (w : World) :
    Ev.reconcile gid .price ("$BIG: " ++ formatPriceOpt op) ∈ (updatePriceChannel gid op w).tr := by
  obtain ⟨t, ht⟩ := updateChannel_tr_head gid .price ("$BIG: " ++ formatPriceOpt op) 0 w
  show Ev.reconcile gid .price ("$BIG: " ++ formatPriceOpt op) ∈
    (updateChannel gid .price ("$BIG: " ++ formatPriceOpt op) 0 w).tr
  rw [ht]; simp

theorem updateHalveningChannel_head_mem (gid : String) (b : ℚ) (w : World) :
    Ev.reconcile gid .halv ("HALVENING: " ++ compact b) ∈ (updateHalveningChannel gid b w).tr := by
  obtain ⟨t, ht⟩ := updateChannel_tr_head gid .halv ("HALVENING: " ++ compact b) 1 w
  show Ev.reconcile gid .halv ("HALVENING: " ++ compact b) ∈
    (updateChannel gid .halv ("HALVENING: " ++ compact b) 1 w).tr
  rw [ht]; simp

/-- Folding one scheduled pass over a tenant list: the accumulated trace
keeps every accumulator event, gains no `fetchStats` event, and contains
both per-tenant `reconcile` markers whose names derive from the single
snapshot. -/
theorem passStep_foldl (op : Option ℚ) (b : ℚ) :
    ∀ (l : List String) (w0 : World) (tr0 : List Ev),
      ((l.foldl (passStep op b) (w0, tr0)).2.count Ev.fetchStats = tr0.count Ev.fetchStats) ∧
      (∀ e ∈ tr0, e ∈ (l.foldl (passStep op b) (w0, tr0)).2) ∧
      (∀ gid ∈ l,
        Ev.reconcile gid .price ("$BIG: " ++ formatPriceOpt op) ∈
            (l.foldl (passStep op b) (w0, tr0)).2 ∧
          Ev.reconcile gid .halv ("HALVENING: " ++ compact b) ∈
            (l.foldl (passStep op b) (w0, tr0)).2) := by
  intro l
  induction l with
  | nil => intro w0 tr0; simp
  | cons x xs ih =>
      intro w0 tr0
      have hfold : (x :: xs).foldl (passStep op b) (w0, tr0) =
          xs.foldl (passStep op b)
            ((updateHalveningChannel x b (updatePriceChannel x op w0).w).w,
              tr0 ++ (updatePriceChannel x op w0).tr ++
                (updateHalveningChannel x b (updatePriceChannel x op w0).w).tr) := rfl
      rw [hfold]
      obtain ⟨ihc, ihm, ihg⟩ := ih (updateHalveningChannel x b (updatePriceChannel x op w0).w).w
        (tr0 ++ (updatePriceChannel x op w0).tr ++
          (updateHalveningChannel x b (updatePriceChannel x op w0).w).tr)
      have h1n : Ev.fetchStats ∉ (updatePriceChannel x op w0).tr :=
        not_fetchStats_of_noGlobal
          (updateChannel_noGlobal x .price ("$BIG: " ++ formatPriceOpt op) 0 w0).1
      have h2n : Ev.fetchStats ∉
          (updateHalveningChannel x b (updatePriceChannel x op w0).w).tr :=
        not_fetchStats_of_noGlobal
          (updateChannel_noGlobal x .halv ("HALVENING: " ++ compact b) 1
            (updatePriceChannel x op w0).w).1
      refine ⟨?_, ?_, ?_⟩
      · rw [ihc]
        simp [List.count_append, List.count_eq_zero.mpr h1n, List.count_eq_zero.mpr h2n]
      · intro e he
        exact ihm e (by simp [he])
      · intro gid hgid
        rcases List.mem_cons.mp hgid with h | h
        · subst h
          exact ⟨ihm _ (by simp [updatePriceChannel_head_mem gid op w0]),
            ihm _ (by simp [updateHalveningChannel_head_mem gid b (updatePriceChannel gid op w0).w])⟩
        · exact ihg gid h

/-- C8: a scheduled pass with a successful fetch issues exactly one
`fetchStats` call, and every registered tenant is reconciled with the
names derived from that single snapshot. -/
theorem pass_fetches_once_same_snapshot (w : World) (p b : ℚ)
    (srest : List (Except String Payload))
    (hstats : w.stats = .ok ⟨some p, some b⟩ :: srest) :
    ((updatePrice w).tr.count Ev.fetchStats = 1) ∧
    (∀ gid ∈ getGuilds w,
      Ev.reconcile gid .price ("$BIG: " ++ formatPrice p) ∈ (updatePrice w).tr ∧
      Ev.reconcile gid .halv ("HALVENING: " ++ compact b) ∈ (updatePrice w).tr) := by
  have hcs : consumeStats w = (.ok ⟨some p, some b⟩, { w with stats := srest }) := by
    simp [consumeStats, hstats]
  have hg : getGuilds { w with stats := srest } = getGuilds w := rfl
  simp only [updatePrice, hcs, getStats, hg]
  by_cases hempty : getGuilds w = []
  · simp [hempty]
  · have hfold := passStep_foldl (some p) b (getGuilds w) { w with stats := srest }
      [Ev.fetchStats, Ev.storeRead .registry]
    simp only [hempty, if_false, ite_false]
    constructor
    · simpa using hfold.1
    · intro gid hgid
      have := hfold.2.2 gid hgid
      simpa [formatPriceOpt] using this

/-- C8 witness: two registered tenants, one pending snapshot. -/
theorem pass_fetches_once_same_snapshot_witness :
    ((updatePrice wC8).tr.count Ev.fetchStats = 1) ∧
    (∀ gid ∈ getGuilds wC8,
      Ev.reconcile gid .price ("$BIG: " ++ formatPrice 1) ∈ (updatePrice wC8).tr ∧
      Ev.reconcile gid .halv ("HALVENING: " ++ compact 2) ∈ (updatePrice wC8).tr) :=
  pass_fetches_once_same_snapshot wC8 1 2 [] rfl

/-! ## C4: a child-creation failure and the rest of the pass -/

/-- When the stored group is live and the child mapping is empty, a failed
channel creation makes `updateChannel` end with the creation failure as
its recorded reason, having written nothing to the store. -/
theorem updateChannel_create_fails (gid : String) (k : CKind) (value : String) (pos : Int)
    (w : World) (g : Guild) (cg : String) (gc : Chan) (rest : List (Option String))
    (hg : lookupGuild w gid = some g)
    (hmem : g.memberOk = true) (hman : g.hasManage = true) (hview : g.hasView = true)
    (hrole : g.rolePos ≠ 0)
    (hgrp : (getMapW w gid).group = some cg)
    (hgc : alookup g.channels cg = some gc) (hgct : gc.ctype = .category)
    (hchild : getChild (getMapW w gid) k = none)
    (hplan : g.createChanPlan = none :: rest) :
    (updateChannel gid k value pos w).val = .failed "createChannel" ∧
    (updateChannel gid k value pos w).tr =
      [.reconcile gid k value, .storeRead (.group gid), .storeRead (childKey k gid),
        .createChan gid value cg pos] ∧
    ((updateChannel gid k value pos w).tr.any isStoreWriteEv = false) := by
  simp only [updateChannel, ucGroupPhase, ensureChannelGroupExists, ucChild, ucCreate,
    lookupChan, consumeCreateChan, hg, hmem, hman, hview, hrole, hgrp, hgc, hgct, hchild,
    hplan]
  simp [isStoreWriteEv]

/-- Any registered tenant's halvening channel is reconciled during a pass
whose fetch succeeded (the per-tenant invocation marker is in the trace). -/
theorem updatePrice_processes_halv (w : World) (p b : ℚ)
    (srest : List (Except String Payload))
    (hstats : w.stats = .ok ⟨some p, some b⟩ :: srest)
    (gid : String) (hgid : gid ∈ getGuilds w) :
    Ev.reconcile gid .halv ("HALVENING: " ++ compact b) ∈ (updatePrice w).tr := by
  have hcs : consumeStats w = (.ok ⟨some p, some b⟩, { w with stats := srest }) := by
    simp [consumeStats, hstats]
  have hg0 : getGuilds { w with stats := srest } = getGuilds w := rfl
  have hne : ¬getGuilds w = [] := by
    intro h
    rw [h] at hgid
    simp at hgid
  simp only [updatePrice, hcs, getStats, hg0, hne, if_false, ite_false]
  exact ((passStep_foldl (some p) b (getGuilds w) _ _).2.2 gid hgid).2

/-- C4 counterexample: in the fixture `wC4` the price channel's creation
fails during the pass, yet the same pass still goes on to reconcile the
halvening channel of the same tenant — `updateChannel` swallows the
creation error in its outer catch, so the pass does not stop. -/
theorem creation_failure_pass_continues_cx :
    (updateChannel "t1" .price ("$BIG: " ++ formatPrice 1) 0 (consumeStats wC4).2).val =
      .failed "createChannel" ∧
    Ev.reconcile "t1" .halv ("HALVENING: " ++ compact 2) ∈ (updatePrice wC4).tr := by
  constructor
  · exact (updateChannel_create_fails "t1" .price ("$BIG: " ++ formatPrice 1) 0
      (consumeStats wC4).2 gC4 "g1" ⟨.category, "🌕 BIGCOIN", none, 0, true⟩ [some "h1"]
      rfl rfl rfl rfl (by decide) rfl rfl rfl rfl rfl).1
  · exact updatePrice_processes_halv wC4 1 2 [] rfl "t1" (by decide)

/-- C4 amended: a failed creation of the price channel ends that channel's
`updateChannel` run with the creation failure as the recorded reason and
no store write, but the pass for the tenant does not stop — the halvening
channel is still reconciled in the same pass (the error is swallowed by
`updateChannel`'s outer catch before control returns to `updatePrice`). -/
theorem creation_failure_aborts_channel_not_pass (gid : String) (p b : ℚ) (w : World)
    (g : Guild) (cg : String) (gc : Chan) (rest : List (Option String))
    (srest : List (Except String Payload))
    (hstats : w.stats = .ok ⟨some p, some b⟩ :: srest)
    (hgid : gid ∈ getGuilds w)
    (hg : lookupGuild w gid = some g)
    (hmem : g.memberOk = true) (hman : g.hasManage = true) (hview : g.hasView = true)
    (hrole : g.rolePos ≠ 0)
    (hgrp : (getMapW w gid).group = some cg)
    (hgc : alookup g.channels cg = some gc) (hgct : gc.ctype = .category)
    (hpc : (getMapW w gid).price = none)
    (hplan : g.createChanPlan = none :: rest) :
    (updateChannel gid .price ("$BIG: " ++ formatPrice p) 0 (consumeStats w).2).val =
      .failed "createChannel" ∧
    ((updateChannel gid .price ("$BIG: " ++ formatPrice p) 0 (consumeStats w).2).tr.any
        isStoreWriteEv = false) ∧
    Ev.reconcile gid .halv ("HALVENING: " ++ compact b) ∈ (updatePrice w).tr := by
  have hcs : (consumeStats w).2 = { w with stats := srest } := by
    simp [consumeStats, hstats]
  have hcf := updateChannel_create_fails gid .price ("$BIG: " ++ formatPrice p) 0
    { w with stats := srest } g cg gc rest hg hmem hman hview hrole hgrp hgc hgct hpc hplan
  rw [hcs]
  exact ⟨hcf.1, hcf.2.2, updatePrice_processes_halv w p b srest hstats gid hgid⟩

/-- C4 witness: the fixture `wC4`. -/
theorem creation_failure_aborts_channel_not_pass_witness :
    (updateChannel "t1" .price ("$BIG: " ++ formatPrice 1) 0 (consumeStats wC4).2).val =
      .failed "createChannel" ∧
    ((updateChannel "t1" .price ("$BIG: " ++ formatPrice 1) 0 (consumeStats wC4).2).tr.any
        isStoreWriteEv = false) ∧
    Ev.reconcile "t1" .halv ("HALVENING: " ++ compact 2) ∈ (updatePrice wC4).tr :=
  creation_failure_aborts_channel_not_pass "t1" 1 2 wC4 gC4 "g1"
    ⟨.category, "🌕 BIGCOIN", none, 0, true⟩ [some "h1"] []
    rfl (by decide) rfl rfl rfl rfl (by decide) rfl rfl rfl rfl rfl

/-! ## C6: order of registration and reconciliation on join -/

theorem updatePriceChannel_tr_head (gid : String) (op : Option ℚ) (w : World) :
    ∃ t, (updatePriceChannel gid op w).tr =
      .reconcile gid .price ("$BIG: " ++ formatPriceOpt op) :: t :=
  ⟨_, rfl⟩

/-- The join handler with a successful fetch: the final registry value is
the deduplicated append of the tenant id, and no registry write occurs
before the first reconciliation marker in its trace. -/
theorem onGuildCreate_spec (gid : String) (w : World) (p b : ℚ)
    (srest : List (Except String Payload))
    (hstats : w.stats = .ok ⟨some p, some b⟩ :: srest) :
    (onGuildCreate gid w).w.registry = some (dedupFirst (getGuilds w ++ [gid])) ∧
    regBeforeRecon (onGuildCreate gid w).tr = false := by
  have hcs : consumeStats w = (.ok ⟨some p, some b⟩, { w with stats := srest }) := by
    simp [consumeStats, hstats]
  have hr1 := (updateChannel_noGlobal gid .price ("$BIG: " ++ formatPriceOpt (some p)) 0
    { w with stats := srest }).2
  have hr2 := (updateChannel_noGlobal gid .halv ("HALVENING: " ++ compact b) 1
    (updatePriceChannel gid (some p) { w with stats := srest }).w).2
  obtain ⟨t, ht⟩ := updatePriceChannel_tr_head gid (some p) { w with stats := srest }
  simp only [onGuildCreate, hcs, getStats]
  constructor
  · simp only [addGuild, setRegistry, getGuilds]
    have : (updateHalveningChannel gid b
        (updatePriceChannel gid (some p) { w with stats := srest }).w).w.registry =
        w.registry := by
      show (updateChannel gid .halv ("HALVENING: " ++ compact b) 1
        (updatePriceChannel gid (some p) { w with stats := srest }).w).w.registry = w.registry
      rw [hr2]
      show (updateChannel gid .price ("$BIG: " ++ formatPriceOpt (some p)) 0
        { w with stats := srest }).w.registry = w.registry
      rw [hr1]
    rw [this]
  · rw [ht]
    simp [regBeforeRecon, isRegistryWrite, isReconcileEv]

/-- C6 counterexample: on the fresh fixture `wC6`, the join handler does
register the tenant, but only after the reconciliation — no registry
write precedes the first reconciliation marker — refuting "registration
happens before the reconciliation". -/
theorem join_registers_after_reconcile_cx :
    regBeforeRecon (onGuildCreate "t1" wC6).tr = false ∧
    (onGuildCreate "t1" wC6).w.registry = some ["t1"] := by
  have h := onGuildCreate_spec "t1" wC6 1 2 [] rfl
  exact ⟨h.2, by rw [h.1]; rfl⟩

/-- C6 amended: the join handler first fetches metrics and reconciles both
channels, and only then registers the tenant with set semantics: the
final registry is the first-occurrence deduplication of the old registry
with the tenant appended, so a duplicate join of an already-registered
tenant leaves a deduplicated registry unchanged. -/
theorem join_reconciles_then_registers (gid : String) (w : World) (p b : ℚ)
    (srest : List (Except String Payload))
    (hstats : w.stats = .ok ⟨some p, some b⟩ :: srest) :
    (onGuildCreate gid w).w.registry = some (dedupFirst (getGuilds w ++ [gid])) ∧
    regBeforeRecon (onGuildCreate gid w).tr = false ∧
    (gid ∈ getGuilds w → (getGuilds w).Nodup →
      (onGuildCreate gid w).w.registry = some (getGuilds w)) := by
  have h := onGuildCreate_spec gid w p b srest hstats
  refine ⟨h.1, h.2, fun hmem hnd => ?_⟩
  rw [h.1, dedupFirst_append_mem hmem, dedupFirst_nodup_id hnd]

/-- C6 witness: the fresh fixture `wC6`. -/
theorem join_reconciles_then_registers_witness :
    (onGuildCreate "t1" wC6).w.registry = some (dedupFirst (getGuilds wC6 ++ ["t1"])) ∧
    regBeforeRecon (onGuildCreate "t1" wC6).tr = false ∧
    ("t1" ∈ getGuilds wC6 → (getGuilds wC6).Nodup →
      (onGuildCreate "t1" wC6).w.registry = some (getGuilds wC6)) :=
  join_reconciles_then_registers "t1" wC6 1 2 [] rfl

/-! ## C7: teardown on leave -/

/-- C7 counterexample: if the tenant has vanished from the platform, the
leave handler removes it from the registry but leaves all three mapping
entries in place (and the unguarded guild fetch in `removeChannelGroup`
escapes the handler). -/
theorem leave_vanished_keeps_mapping_cx :
    getMapW (onGuildDelete "t1" wC7x).w "t1" = ⟨some "g", some "p", some "h"⟩ ∧
    (onGuildDelete "t1" wC7x).val = Except.error "guildFetch" ∧
    getGuilds (onGuildDelete "t1" wC7x).w = [] :=
  ⟨rfl, rfl, rfl⟩

theorem consumeDel_maps (gid : String) (w : World) : (consumeDel gid w).2.maps = w.maps := by
  unfold consumeDel; split
  · rfl
  · split <;> rfl

theorem consumeDel_registry (gid : String) (w : World) :
    (consumeDel gid w).2.registry = w.registry := by
  unfold consumeDel; split
  · rfl
  · split <;> rfl

theorem consumeDel_pres (gid : String) (w : World) (g : Guild)
    (hg : lookupGuild w gid = some g) :
    ∃ g', lookupGuild (consumeDel gid w).2 gid = some g' := by
  unfold consumeDel
  rw [hg]
  cases hd : g.delPlan with
  | nil =>
      simp only [hd]
      exact ⟨g, hg⟩
  | cons b r =>
      simp only [hd]
      exact ⟨_, lookupGuild_setGuild_self _ _ _⟩

theorem getMapW_congr {w' w : World} (gid : String) (h : w'.maps = w.maps) :
    getMapW w' gid = getMapW w gid := by
  simp [getMapW, h]

theorem lookupGuild_congr {w' w : World} (gid : String) (h : w'.guilds = w.guilds) :
    lookupGuild w' gid = lookupGuild w gid := by
  simp [lookupGuild, h]

theorem delChanW_maps (gid cid : String) (w : World) : (delChanW gid cid w).maps = w.maps := by
  simp only [delChanW]
  split
  · split
    · exact consumeDel_maps gid w
    · simp [setGuild_maps, consumeDel_maps]
  · exact consumeDel_maps gid w

theorem delChanW_registry (gid cid : String) (w : World) :
    (delChanW gid cid w).registry = w.registry := by
  simp only [delChanW]
  split
  · split
    · exact consumeDel_registry gid w
    · simp [setGuild_registry, consumeDel_registry]
  · exact consumeDel_registry gid w

theorem delChanW_pres (gid cid : String) (w : World) (g : Guild)
    (hg : lookupGuild w gid = some g) :
    ∃ g', lookupGuild (delChanW gid cid w) gid = some g' := by
  obtain ⟨gd, hgd⟩ := consumeDel_pres gid w g hg
  simp only [delChanW]
  split
  · split
    · next hnone => rw [hnone] at hgd; simp at hgd
    · exact ⟨_, lookupGuild_setGuild_self _ _ _⟩
  · exact ⟨gd, hgd⟩

theorem getMapW_setMapChild_price (w : World) (gid : String) (o : Option String) :
    getMapW (setMapChild w gid .price o) gid = { getMapW w gid with price := o } := by
  simp [setMapChild, getMapW_setMapW_self]

theorem getMapW_setMapChild_halv (w : World) (gid : String) (o : Option String) :
    getMapW (setMapChild w gid .halv o) gid = { getMapW w gid with halv := o } := by
  simp [setMapChild, getMapW_setMapW_self]

theorem getMapW_setMapGroup (w : World) (gid : String) (o : Option String) :
    getMapW (setMapGroup w gid o) gid = { getMapW w gid with group := o } := by
  simp [setMapGroup, getMapW_setMapW_self]

theorem removeGuild_spec (gid : String) (w : World) :
    gid ∉ getGuilds (removeGuild gid w).w ∧
    (removeGuild gid w).w.guilds = w.guilds ∧
    (removeGuild gid w).w.maps = w.maps ∧
    (removeGuild gid w).w.registry.getD [] = getGuilds (removeGuild gid w).w := by
  unfold removeGuild
  split
  · next h => simp [getGuilds] at h ⊢; simp [h]
  · exact ⟨not_mem_dedupFirst_filter gid _, rfl, rfl, rfl⟩

theorem lookupGuild_setMapChild (w : World) (gid gid' : String) (k : CKind)
    (o : Option String) :
    lookupGuild (setMapChild w gid' k o) gid = lookupGuild w gid :=
  lookupGuild_congr gid (setMapChild_guilds w gid' k o)

/-- `removePriceChannel` on a fetchable guild clears exactly the price
mapping entry, preserving the other two entries, the registry, and the
guild's fetchability. -/
theorem removePriceChannel_spec (gid : String) (w : World) (g : Guild)
    (hg : lookupGuild w gid = some g) :
    (getMapW (removePriceChannel gid w).w gid).price = none ∧
    (getMapW (removePriceChannel gid w).w gid).group = (getMapW w gid).group ∧
    (getMapW (removePriceChannel gid w).w gid).halv = (getMapW w gid).halv ∧
    (removePriceChannel gid w).w.registry = w.registry ∧
    (∃ g', lookupGuild (removePriceChannel gid w).w gid = some g') := by
  simp only [removePriceChannel, removeChildChannel, hg]
  split
  · next hm => exact ⟨hm, rfl, rfl, rfl, ⟨g, hg⟩⟩
  · next cid hm =>
      split
      · next hch =>
          refine ⟨?_, ?_, ?_, ?_, ⟨g, ?_⟩⟩
          · rw [getMapW_setMapChild_price]
          · rw [getMapW_setMapChild_price]
          · rw [getMapW_setMapChild_price]
          · rw [setMapChild_registry]
          · rw [lookupGuild_setMapChild]; exact hg
      · next c hch =>
          have hmm := @getMapW_congr (delChanW gid cid w) w gid
            (delChanW_maps gid cid w)
          obtain ⟨g', hgl⟩ := delChanW_pres gid cid w g hg
          refine ⟨?_, ?_, ?_, ?_, ⟨g', ?_⟩⟩
          · rw [getMapW_setMapChild_price]
          · rw [getMapW_setMapChild_price, hmm]
          · rw [getMapW_setMapChild_price, hmm]
          · rw [setMapChild_registry, delChanW_registry]
          · rw [lookupGuild_setMapChild]; exact hgl

/-- `removeHalveningChannel` on a fetchable guild clears exactly the
halvening mapping entry. -/
theorem removeHalveningChannel_spec (gid : String) (w : World) (g : Guild)
    (hg : lookupGuild w gid = some g) :
    (getMapW (removeHalveningChannel gid w).w gid).halv = none ∧
    (getMapW (removeHalveningChannel gid w).w gid).group = (getMapW w gid).group ∧
    (getMapW (removeHalveningChannel gid w).w gid).price = (getMapW w gid).price ∧
    (removeHalveningChannel gid w).w.registry = w.registry ∧
    (∃ g', lookupGuild (removeHalveningChannel gid w).w gid = some g') := by
  simp only [removeHalveningChannel, removeChildChannel, hg]
  split
  · next hm => exact ⟨hm, rfl, rfl, rfl, ⟨g, hg⟩⟩
  · next cid hm =>
      split
      · next hch =>
          refine ⟨?_, ?_, ?_, ?_, ⟨g, ?_⟩⟩
          · rw [getMapW_setMapChild_halv]
          · rw [getMapW_setMapChild_halv]
          · rw [getMapW_setMapChild_halv]
          · rw [setMapChild_registry]
          · rw [lookupGuild_setMapChild]; exact hg
      · next c hch =>
          have hmm := @getMapW_congr (delChanW gid cid w) w gid
            (delChanW_maps gid cid w)
          obtain ⟨g', hgl⟩ := delChanW_pres gid cid w g hg
          refine ⟨?_, ?_, ?_, ?_, ⟨g', ?_⟩⟩
          · rw [getMapW_setMapChild_halv]
          · rw [getMapW_setMapChild_halv, hmm]
          · rw [getMapW_setMapChild_halv, hmm]
          · rw [setMapChild_registry, delChanW_registry]
          · rw [lookupGuild_setMapChild]; exact hgl

/-- `removeChannelGroup` on a fetchable guild clears the group mapping
entry, preserves the child entries and the registry, and returns
normally. -/
theorem removeChannelGroup_spec (gid : String) (w : World) (g : Guild)
    (hg : lookupGuild w gid = some g) :
    (getMapW (removeChannelGroup gid w).w gid).group = none ∧
    (getMapW (removeChannelGroup gid w).w gid).price = (getMapW w gid).price ∧
    (getMapW (removeChannelGroup gid w).w gid).halv = (getMapW w gid).halv ∧
    (removeChannelGroup gid w).w.registry = w.registry ∧
    (removeChannelGroup gid w).val = Except.ok () := by
  simp only [removeChannelGroup, hg]
  split
  · next hm => exact ⟨hm, rfl, rfl, rfl, rfl⟩
  · next cid hm =>
      split
      · next hch =>
          refine ⟨?_, ?_, ?_, ?_, rfl⟩
          · rw [getMapW_setMapGroup]
          · rw [getMapW_setMapGroup]
          · rw [getMapW_setMapGroup]
          · rw [setMapGroup_registry]
      · next c hch =>
          have hmm := @getMapW_congr (delChanW gid cid w) w gid
            (delChanW_maps gid cid w)
          refine ⟨?_, ?_, ?_, ?_, rfl⟩
          · rw [getMapW_setMapGroup]
          · rw [getMapW_setMapGroup, hmm]
          · rw [getMapW_setMapGroup, hmm]
          · rw [setMapGroup_registry, delChanW_registry]

/-- C7 amended: when the tenant is still fetchable on the platform, the
leave handler removes it from the registry and clears all three mapping
entries, regardless of whether the three external deletes succeeded or
the resources were already gone; the handler returns normally. -/
theorem leave_clears_mapping_when_fetchable (gid : String) (w : World) (g : Guild)
    (hg : lookupGuild w gid = some g) :
    gid ∉ getGuilds (onGuildDelete gid w).w ∧
    getMapW (onGuildDelete gid w).w gid = ⟨none, none, none⟩ ∧
    (onGuildDelete gid w).val = Except.ok () := by
  have hRG := removeGuild_spec gid w
  have hg1 : lookupGuild (removeGuild gid w).w gid = some g := by
    rw [lookupGuild_congr gid hRG.2.1]; exact hg
  have hP := removePriceChannel_spec gid (removeGuild gid w).w g hg1
  obtain ⟨g2, hg2⟩ := hP.2.2.2.2
  have hH := removeHalveningChannel_spec gid
    (removePriceChannel gid (removeGuild gid w).w).w g2 hg2
  obtain ⟨g3, hg3⟩ := hH.2.2.2.2
  have hG := removeChannelGroup_spec gid
    (removeHalveningChannel gid (removePriceChannel gid (removeGuild gid w).w).w).w g3 hg3
  refine ⟨?_, ?_, hG.2.2.2.2⟩
  · have hreg : (onGuildDelete gid w).w.registry = (removeGuild gid w).w.registry := by
      show (removeChannelGroup gid
        (removeHalveningChannel gid (removePriceChannel gid (removeGuild gid w).w).w).w).w.registry =
        (removeGuild gid w).w.registry
      rw [hG.2.2.2.1, hH.2.2.2.1, hP.2.2.2.1]
    have hmem := hRG.1
    simp only [getGuilds] at hmem ⊢
    rw [hreg]
    exact hmem
  · have h1 : (getMapW (onGuildDelete gid w).w gid).group = none := hG.1
    have h2 : (getMapW (onGuildDelete gid w).w gid).price = none := by
      show (getMapW (removeChannelGroup gid
        (removeHalveningChannel gid (removePriceChannel gid (removeGuild gid w).w).w).w).w gid).price = none
      rw [hG.2.1, hH.2.2.1, hP.1]
    have h3 : (getMapW (onGuildDelete gid w).w gid).halv = none := by
      show (getMapW (removeChannelGroup gid
        (removeHalveningChannel gid (removePriceChannel gid (removeGuild gid w).w).w).w).w gid).halv = none
      rw [hG.2.2.1, hH.1]
    cases hfm : getMapW (onGuildDelete gid w).w gid with
    | mk a bb c =>
        rw [hfm] at h1 h2 h3
        simp only at h1 h2 h3
        rw [h1, h2, h3]

/-- C7 witness: fixture `wC7` whose tenant `t1` is still fetchable. -/
theorem leave_clears_mapping_when_fetchable_witness :
    "t1" ∉ getGuilds (onGuildDelete "t1" wC7).w ∧
    getMapW (onGuildDelete "t1" wC7).w "t1" = ⟨none, none, none⟩ ∧
    (onGuildDelete "t1" wC7).val = Except.ok () :=
  leave_clears_mapping_when_fetchable "t1" wC7 gC7 rfl
